import Mathlib

set_option autoImplicit false

/-!
Verification of the DynamoDB → PostgreSQL synchronization service
(`src/app.py`).  The development shallow-embeds the pipeline:

* DynamoDB attribute values are `AttrVal` (a number, modelled exactly as a
  rational since boto3 returns `Decimal`, or a string).  A raw scan item
  (`RawItem`) carries each attribute as an `Option AttrVal`; `none` is the
  result of `item.get(...)` when the key is absent.
* Python's `float(...)` / `int(...)` coercions are the partial functions
  `pyFloat` / `pyInt`; a `none` result stands for the coercion raising
  (`TypeError` / `ValueError`).  `int` truncates a decimal toward zero and
  parses integer-shaped strings; `float` of a number is exact here (binary
  rounding of IEEE doubles is not modelled, as no property depends on it).
* The pagination loop of `run_dynamo_sync` (lines 57-64) is `scanLoop`,
  written with explicit fuel since the Python `while True` has no bound; the
  finite-chain hypothesis `chainEnds` supplies the bound.
* The staging merge (lines 89-143) is `stageRows` (bulk insert into
  `temp_lecturas` with `ON CONFLICT (id_lectura) DO NOTHING`) followed by
  `mergeInto` (the `INSERT ... SELECT ... ON CONFLICT DO NOTHING` into
  `lecturas_sensores`, whose rowcount is the returned count).  The
  `::uuid` and `to_timestamp` conversions are injective re-typings and are
  modelled as the identity on the underlying data (a cast failure, like any
  other server-side failure, is injected through `StoreEnv`).
* `run_dynamo_sync` is the orchestrator; external failures (scan error,
  connection/staging/move/commit errors) are injected through its
  environment.  The transaction discipline of the source — commit only
  after both inserts, `conn.rollback()` on any exception — appears as: the
  visible permanent store changes only in the success branch.
* An uncaught Python exception (the data-preparation loop of lines 77-84 is
  outside every `try`) is an `Except.error` outcome that propagates to the
  caller of `run_dynamo_sync`, hence also out of the Flask route
  `manual_sync`.
-/

/-- A DynamoDB attribute value as seen through boto3: a `Decimal` number
(exact rational) or a string. -/
inductive AttrVal where
  | numV : Rat → AttrVal
  | strV : String → AttrVal
deriving DecidableEq

/-- Python `float(v)`: a number converts exactly; string parsing of
float-shaped strings is not modelled (no record in scope carries one), so a
string value stands for a raised `ValueError`. -/
def pyFloat : AttrVal → Option Rat
  | AttrVal.numV q => some q
  | AttrVal.strV _ => none

/-- Python `int(v)`: a `Decimal` truncates toward zero; an integer-shaped
string parses; any other string raises. -/
def pyInt : AttrVal → Option Int
  | AttrVal.numV q => some (q.num.tdiv q.den)
  | AttrVal.strV s => s.toInt?

/-- Python `float(item.get(k, 0.0))`: the default is used when the key is absent. -/
def pyFloatD (v : Option AttrVal) (d : Rat) : Option Rat :=
  match v with
  | none => some d
  | some w => pyFloat w

/-- Python `int(item.get(k, 0))`: the default is used when the key is absent. -/
def pyIntD (v : Option AttrVal) (d : Int) : Option Int :=
  match v with
  | none => some d
  | some w => pyInt w

/-- Python `int(item.get(k))` with no default: an absent key yields `None` and
`int(None)` raises `TypeError`. -/
def pyIntReq (v : Option AttrVal) : Option Int :=
  match v with
  | none => none
  | some w => pyInt w

/-- One raw DynamoDB item; each field is `item.get(...)`, absent keys give
`none`. -/
structure RawItem where
  id_lectura : Option AttrVal
  device_id : Option AttrVal
  temperatura : Option AttrVal
  humedad : Option AttrVal
  distancia_cm : Option AttrVal
  luz_porcentaje : Option AttrVal
  estado_luz : Option AttrVal
  timestamp : Option AttrVal
deriving DecidableEq

/-- One tuple of `datos_para_insertar` (src/app.py lines 79-84). -/
structure NormalizedRow where
  id_lectura : Option AttrVal
  device_id : Option AttrVal
  temperatura : Rat
  humedad : Rat
  distancia_cm : Rat
  luz_porcentaje : Int
  estado_luz : Option AttrVal
  timestamp : Int
deriving DecidableEq

/-- One row of the permanent table `lecturas_sensores`.  The `::uuid` cast of
`id_lectura` and `to_timestamp` of the epoch are injective re-typings kept as
the underlying string / epoch value. -/
structure PersistedRow where
  id_lectura : Option AttrVal
  device_id : Option AttrVal
  temperatura : Rat
  humedad : Rat
  distancia_cm : Rat
  luz_porcentaje : Int
  estado_luz : Option AttrVal
  timestamp_lectura : Int
deriving DecidableEq

/-- The column conversion performed by the `INSERT ... SELECT` (lines
119-135). -/
def toPersisted (r : NormalizedRow) : PersistedRow :=
  ⟨r.id_lectura, r.device_id, r.temperatura, r.humedad, r.distancia_cm,
   r.luz_porcentaje, r.estado_luz, r.timestamp⟩

/-- Build one tuple of step 2 (lines 79-84).  `none` means one of the
coercions raised, which aborts the whole loop. -/
def prepareItem (it : RawItem) : Option NormalizedRow :=
  match pyFloatD it.temperatura 0, pyFloatD it.humedad 0,
        pyFloatD it.distancia_cm 0, pyIntD it.luz_porcentaje 0,
        pyIntReq it.timestamp with
  | some t, some h, some d, some lp, some ts =>
      some ⟨it.id_lectura, it.device_id, t, h, d, lp, it.estado_luz, ts⟩
  | _, _, _, _, _ => none

/-- The preparation loop of lines 77-84: it is outside every `try` block, so
a single failing item makes the whole call raise (`none`). -/
def prepareAll : List RawItem → Option (List NormalizedRow)
  | [] => some []
  | it :: rest =>
    match prepareItem it, prepareAll rest with
    | some r, some rs => some (r :: rs)
    | _, _ => none

/-- One response of `dynamo_table.scan(**scan_kwargs)`: the `Items` list
(absent `Items` is the empty list, via `response.get('Items', [])`) and the
optional `LastEvaluatedKey`. -/
structure ScanResponse (α κ : Type) where
  items : List α
  lastEvaluatedKey : Option κ

/-- The `while True` pagination loop of lines 59-64.  The table is a map
from the request's `ExclusiveStartKey` (`none` on the first request) to a
response.  The Python loop has no bound, so the embedding carries fuel;
running out of fuel (`none`) stands for non-termination.  The second
component of the result counts the scan requests issued. -/
def scanLoop {α κ : Type} (table : Option κ → ScanResponse α κ) :
    Nat → Option κ → List α → Nat → Option (List α × Nat)
  | 0, _, _, _ => none
  | fuel + 1, key, acc, reqs =>
    let resp := table key
    match resp.lastEvaluatedKey with
    | none => some (acc ++ resp.items, reqs + 1)
    | some k2 => scanLoop table fuel (some k2) (acc ++ resp.items) (reqs + 1)

/-- The whole scan phase: start with empty `items` and empty `scan_kwargs`. -/
def scan_all {α κ : Type} (table : Option κ → ScanResponse α κ) (fuel : Nat) :
    Option (List α × Nat) :=
  scanLoop table fuel none [] 0

/-- The response chain starting at request `key` ends after exactly `n`
continuation steps (so it has `n + 1` pages). -/
def chainEnds {α κ : Type} (table : Option κ → ScanResponse α κ) :
    Option κ → Nat → Bool
  | key, 0 => (table key).lastEvaluatedKey.isNone
  | key, n + 1 =>
    match (table key).lastEvaluatedKey with
    | none => false
    | some k2 => chainEnds table (some k2) n

/-- Concatenation of the items of every page of the chain of `n`
continuation steps starting at request `key`. -/
def chainItems {α κ : Type} (table : Option κ → ScanResponse α κ) :
    Option κ → Nat → List α
  | key, 0 => (table key).items
  | key, n + 1 =>
    (table key).items ++
      (match (table key).lastEvaluatedKey with
       | none => []
       | some k2 => chainItems table (some k2) n)

/-- List `l` holds a normalized row whose `id_lectura` equals `i`. -/
def hasIdN (l : List NormalizedRow) (i : Option AttrVal) : Bool :=
  l.any (fun s => s.id_lectura == i)

/-- List `p` holds a persisted row whose `id_lectura` equals `i`. -/
def hasIdP (p : List PersistedRow) (i : Option AttrVal) : Bool :=
  p.any (fun r => r.id_lectura == i)

/-- Number of persisted rows carrying id `i`. -/
def countId (p : List PersistedRow) (i : Option AttrVal) : Nat :=
  (p.filter (fun r => r.id_lectura == i)).length

/-- Number of normalized rows carrying id `i`. -/
def countIdN (l : List NormalizedRow) (i : Option AttrVal) : Nat :=
  (l.filter (fun s => s.id_lectura == i)).length

/-- Insertion of one row into `temp_lecturas`:
`ON CONFLICT (id_lectura) DO NOTHING` keeps the first occurrence. -/
def stageInsert (acc : List NormalizedRow) (r : NormalizedRow) :
    List NormalizedRow :=
  if hasIdN acc r.id_lectura then acc else acc ++ [r]

/-- Step 3b (lines 108-116): bulk insert of the prepared tuples into the
fresh per-run temporary table, deduplicating on `id_lectura`. -/
def stageRows (rows : List NormalizedRow) : List NormalizedRow :=
  rows.foldl stageInsert []

/-- One row of the `INSERT ... SELECT` of step 3c: skipped when its id
already exists in `lecturas_sensores`, otherwise appended and counted. -/
def mergeStep (st : List PersistedRow × Nat) (r : NormalizedRow) :
    List PersistedRow × Nat :=
  if hasIdP st.1 r.id_lectura then st else (st.1 ++ [toPersisted r], st.2 + 1)

/-- Step 3c (lines 119-137): move the staged rows into the permanent table,
skipping ids already present; the second component is `cursor.rowcount`. -/
def mergeInto (perm : List PersistedRow) (staged : List NormalizedRow) :
    List PersistedRow × Nat :=
  staged.foldl mergeStep (perm, 0)

/-- The whole merge engine of one run on the permanent store `perm`:
staging dedup then set move, as in §4.3 of the spec. -/
def merge (rows : List NormalizedRow) (perm : List PersistedRow) :
    List PersistedRow × Nat :=
  mergeInto perm (stageRows rows)

/-- Failure injection for the PostgreSQL side of one run: each field, when
`some msg`, makes the corresponding operation raise with message `msg`
(connection acquisition, temp-table create/bulk insert, the
`INSERT ... SELECT` move — including a `::uuid` cast error — and the
commit). -/
structure StoreEnv where
  connectFail : Option String
  stagingFail : Option String
  moveFail : Option String
  commitFail : Option String
deriving DecidableEq

/-- The `StoreEnv` in which every PostgreSQL operation succeeds. -/
def okStore : StoreEnv := ⟨none, none, none, none⟩

/-- The dictionary returned by `run_dynamo_sync`. -/
structure SyncResult where
  status : String
  new_records : Option Nat
  error : Option String
deriving DecidableEq

/-- An uncaught Python exception propagating out of `run_dynamo_sync`. -/
inductive PyError where
  | typeError : PyError
deriving DecidableEq

/-- Observable outcome of one call to `run_dynamo_sync`: the returned value
(or the uncaught exception), the visible (committed) content of
`lecturas_sensores` afterwards, whether the preparation loop of step 2 ran,
and whether a connection to PostgreSQL was opened. -/
structure SyncOutcome where
  result : Except PyError SyncResult
  db : List PersistedRow
  prepared : Bool
  connOpened : Bool

/-- The orchestrator `run_dynamo_sync` (lines 45-151).  `scanResult` is the outcome of the
scan phase (`Except.error e` when `dynamo_table.scan` raised with message
`e`); `store` injects PostgreSQL-side failures; `db` is the committed
content of `lecturas_sensores` before the run.  Rollback on failure and
commit-at-end appear as: the visible store changes only in the success
branch. -/
def run_dynamo_sync (scanResult : Except String (List RawItem))
    (store : StoreEnv) (db : List PersistedRow) : SyncOutcome :=
  match scanResult with
  | Except.error e => ⟨Except.ok ⟨"error_dynamo", none, some e⟩, db, false, false⟩
  | Except.ok items =>
    if items.isEmpty then
      ⟨Except.ok ⟨"no_items", none, none⟩, db, false, false⟩
    else
      match prepareAll items with
      | none => ⟨Except.error PyError.typeError, db, true, false⟩
      | some rows =>
        match store.connectFail with
        | some e => ⟨Except.ok ⟨"error_postgres", none, some e⟩, db, true, false⟩
        | none =>
          match store.stagingFail with
          | some e => ⟨Except.ok ⟨"error_postgres", none, some e⟩, db, true, true⟩
          | none =>
            match store.moveFail with
            | some e => ⟨Except.ok ⟨"error_postgres", none, some e⟩, db, true, true⟩
            | none =>
              match store.commitFail with
              | some e => ⟨Except.ok ⟨"error_postgres", none, some e⟩, db, true, true⟩
              | none =>
                ⟨Except.ok ⟨"success", some (merge rows db).2, none⟩,
                 (merge rows db).1, true, true⟩

/-- Some step of the merge phase proper (staging insert, move to the
permanent table, or commit) fails. -/
def mergeStepFails (store : StoreEnv) : Prop :=
  store.stagingFail ≠ none ∨ store.moveFail ≠ none ∨ store.commitFail ≠ none

/-- The HTTP response produced by `jsonify` in `manual_sync` (line 196):
`jsonify` answers with status code 200 and the given body. -/
structure HttpResponse where
  statusCode : Nat
  message : String
  result : SyncResult
deriving DecidableEq

/-- The route handler `manual_sync` (lines 189-196): it calls
`run_dynamo_sync` with no `try`, so an uncaught exception propagates to
Flask (which then answers 500, not the 200 JSON envelope). -/
def manual_sync (scanResult : Except String (List RawItem))
    (store : StoreEnv) (db : List PersistedRow) :
    Except PyError HttpResponse :=
  match (run_dynamo_sync scanResult store db).result with
  | Except.error e => Except.error e
  | Except.ok r => Except.ok ⟨200, "Sincronización manual completada.", r⟩

lemma scanLoop_chain {α κ : Type} (table : Option κ → ScanResponse α κ) :
    ∀ (n fuel : Nat) (key : Option κ) (acc : List α) (reqs : Nat),
      chainEnds table key n = true → n < fuel →
      scanLoop table fuel key acc reqs =
        some (acc ++ chainItems table key n, reqs + (n + 1)) := by
  intro n
  induction n with
  | zero =>
    intro fuel key acc reqs hend hfuel
    cases fuel with
    | zero => exact absurd hfuel (Nat.lt_irrefl 0)
    | succ f =>
      cases hk : (table key).lastEvaluatedKey with
      | none => simp [scanLoop, chainItems, hk]
      | some k2 => simp [chainEnds, hk] at hend
  | succ n ih =>
    intro fuel key acc reqs hend hfuel
    cases fuel with
    | zero => exact absurd hfuel (Nat.not_lt_zero _)
    | succ f =>
      cases hk : (table key).lastEvaluatedKey with
      | none => simp [chainEnds, hk] at hend
      | some k2 =>
        have hend2 : chainEnds table (some k2) n = true := by
          simpa [chainEnds, hk] using hend
        have hf2 : n < f := Nat.lt_of_succ_lt_succ hfuel
        simp only [scanLoop, hk]
        rw [ih f (some k2) (acc ++ (table key).items) (reqs + 1) hend2 hf2]
        simp [chainItems, hk, List.append_assoc]
        omega

/-- C4: for every source store whose scan responses form a finite chain of
pages (`chainEnds`), `scan_all` (given fuel covering the chain) returns the
concatenation of the items of every page of the chain, issuing one request
per page — no partial page set is exposed. -/
theorem scan_all_returns_all_pages {α κ : Type}
    (table : Option κ → ScanResponse α κ) (n : Nat)
    (h : chainEnds table none n = true) :
    scan_all table (n + 1) = some (chainItems table none n, n + 1) := by
  unfold scan_all
  rw [scanLoop_chain table n (n + 1) none [] 0 h (Nat.lt_succ_self n)]
  simp

/-- C10: under the finite-chain precondition the pagination loop terminates
(any fuel beyond the chain length yields a result rather than running out),
and it issues exactly one scan request per page of the chain: `n + 1`
requests for the `n + 1` pages. -/
theorem scan_loop_terminates {α κ : Type}
    (table : Option κ → ScanResponse α κ) (n fuel : Nat)
    (h : chainEnds table none n = true) (hfuel : n < fuel) :
    scan_all table fuel = some (chainItems table none n, n + 1) := by
  unfold scan_all
  rw [scanLoop_chain table n fuel none [] 0 h hfuel]
  simp

/-- A demonstration source store: 250 items split over 4 pages, the last 3
of which are fetched through continuation markers. -/
def demoTable : Option Nat → ScanResponse Nat Nat :=
  fun key =>
    match key with
    | none => ⟨List.range 100, some 1⟩
    | some 1 => ⟨(List.range 100).map (fun j => 100 + j), some 2⟩
    | some 2 => ⟨(List.range 40).map (fun j => 200 + j), some 3⟩
    | some 3 => ⟨(List.range 10).map (fun j => 240 + j), none⟩
    | some _ => ⟨[], none⟩

set_option maxRecDepth 8192 in
theorem scan_all_returns_all_pages_witness :
    chainEnds demoTable none 3 = true ∧
    scan_all demoTable 4 = some (chainItems demoTable none 3, 4) ∧
    chainItems demoTable none 3 = List.range 250 :=
  ⟨by decide, scan_all_returns_all_pages demoTable 3 (by decide), by decide⟩

theorem scan_loop_terminates_witness :
    chainEnds demoTable none 3 = true ∧ 3 < 10 ∧
    scan_all demoTable 10 = some (chainItems demoTable none 3, 4) :=
  ⟨by decide, by decide, scan_loop_terminates demoTable 3 10 (by decide) (by decide)⟩

/-- C6: a scan failure makes the run return immediately with status
`error_dynamo` (the spec's `error_source`) carrying the error message; the
preparation loop never runs, no PostgreSQL connection is opened, and the
permanent store is unchanged. -/
theorem scan_failure_aborts (e : String) (store : StoreEnv)
    (db : List PersistedRow) :
    run_dynamo_sync (Except.error e) store db =
      ⟨Except.ok ⟨"error_dynamo", none, some e⟩, db, false, false⟩ := rfl

/-- C7: an empty scan result short-circuits the run to status `no_items`:
neither normalization nor merge is invoked, no connection is opened, and the
permanent store is unchanged. -/
theorem empty_scan_no_items (store : StoreEnv) (db : List PersistedRow) :
    run_dynamo_sync (Except.ok []) store db =
      ⟨Except.ok ⟨"no_items", none, none⟩, db, false, false⟩ := rfl

lemma prepareItem_ts_none (it : RawItem) (h : pyIntReq it.timestamp = none) :
    prepareItem it = none := by
  unfold prepareItem
  split
  · simp_all
  · rfl

lemma prepareAll_none_of_mem (items : List RawItem) (it : RawItem)
    (hm : it ∈ items) (h : prepareItem it = none) : prepareAll items = none := by
  induction items with
  | nil => cases hm
  | cons a rest ih =>
    rcases List.mem_cons.mp hm with rfl | hm2
    · unfold prepareAll
      rw [h]
    · unfold prepareAll
      rw [ih hm2]
      cases prepareItem a <;> rfl

lemma run_sync_prep_none (items : List RawItem) (store : StoreEnv)
    (db : List PersistedRow) (hprep : prepareAll items = none) :
    run_dynamo_sync (Except.ok items) store db =
      ⟨Except.error PyError.typeError, db, true, false⟩ := by
  cases items with
  | nil => simp [prepareAll] at hprep
  | cons a rest =>
    unfold run_dynamo_sync
    simp [List.isEmpty_cons, hprep]

/-- C9: whenever the data-preparation loop fails (e.g. integer coercion of
an absent timestamp), the exception propagates out of `run_dynamo_sync`
before any PostgreSQL connection is opened, so the permanent store is left
completely unchanged. -/
theorem prep_failure_frame (items : List RawItem) (store : StoreEnv)
    (db : List PersistedRow) (hprep : prepareAll items = none) :
    run_dynamo_sync (Except.ok items) store db =
      ⟨Except.error PyError.typeError, db, true, false⟩ :=
  run_sync_prep_none items store db hprep

/-- A raw item whose `timestamp` key is absent; every other field is
well-formed. -/
def rawNoTs : RawItem :=
  ⟨some (AttrVal.strV "b7"), some (AttrVal.strV "dev1"), some (AttrVal.numV 21),
   none, none, some (AttrVal.numV 80), some (AttrVal.strV "on"), none⟩

/-- A fully well-formed raw item. -/
def rawGood : RawItem :=
  ⟨some (AttrVal.strV "a1"), some (AttrVal.strV "dev1"), some (AttrVal.numV 22),
   some (AttrVal.numV 55), some (AttrVal.numV 10), some (AttrVal.numV 80),
   some (AttrVal.strV "on"), some (AttrVal.numV 1700000000)⟩

theorem prep_failure_frame_witness :
    prepareAll [rawNoTs] = none ∧
    run_dynamo_sync (Except.ok [rawNoTs]) okStore [] =
      ⟨Except.error PyError.typeError, [], true, false⟩ :=
  ⟨rfl, prep_failure_frame [rawNoTs] okStore [] rfl⟩

/-- C1 (counterexample): a batch holding the valid item `rawGood` and the
timestamp-less item `rawNoTs` does NOT skip only the malformed item — the
whole run raises (`int(None)` in the preparation loop, which sits outside
every `try`), and the valid sibling is not persisted: the store stays
empty. -/
theorem malformed_record_counterexample :
    run_dynamo_sync (Except.ok [rawGood, rawNoTs]) okStore [] =
      ⟨Except.error PyError.typeError, [], true, false⟩ := rfl

/-- C1 (amended): a raw item with an absent or non-numeric timestamp makes
the preparation loop raise, failing the whole batch: the run propagates the
exception, no sibling item is persisted, no connection is opened, and the
permanent store is unchanged. -/
theorem malformed_timestamp_fails_batch (items : List RawItem) (it : RawItem)
    (store : StoreEnv) (db : List PersistedRow) (hmem : it ∈ items)
    (hts : pyIntReq it.timestamp = none) :
    run_dynamo_sync (Except.ok items) store db =
      ⟨Except.error PyError.typeError, db, true, false⟩ :=
  run_sync_prep_none items store db
    (prepareAll_none_of_mem items it hmem (prepareItem_ts_none it hts))

/-- A pre-existing permanent-store row, untouched by failing runs. -/
def rawPersisted0 : PersistedRow :=
  ⟨some (AttrVal.strV "z9"), some (AttrVal.strV "dev0"), 20, 50, 5, 10,
   some (AttrVal.strV "off"), 1690000000⟩

theorem malformed_timestamp_fails_batch_witness :
    rawNoTs ∈ [rawGood, rawNoTs] ∧ pyIntReq rawNoTs.timestamp = none ∧
    run_dynamo_sync (Except.ok [rawGood, rawNoTs]) okStore [rawPersisted0] =
      ⟨Except.error PyError.typeError, [rawPersisted0], true, false⟩ :=
  ⟨by decide, rfl,
   malformed_timestamp_fails_batch [rawGood, rawNoTs] rawNoTs okStore
     [rawPersisted0] (by decide) rfl⟩

lemma toPersisted_id (r : NormalizedRow) :
    (toPersisted r).id_lectura = r.id_lectura := rfl

lemma countId_snoc (p : List PersistedRow) (r : PersistedRow)
    (i : Option AttrVal) :
    countId (p ++ [r]) i =
      countId p i + (if r.id_lectura == i then 1 else 0) := by
  simp only [countId, List.filter_append, List.length_append, List.filter_cons,
    List.filter_nil]
  split <;> simp

lemma hasIdP_false_iff (p : List PersistedRow) (i : Option AttrVal) :
    hasIdP p i = false ↔ countId p i = 0 := by
  induction p with
  | nil => simp [hasIdP, countId]
  | cons r t ih =>
    cases hr : r.id_lectura == i with
    | true => simp [hasIdP, countId, List.filter_cons, hr]
    | false =>
      simp only [hasIdP, countId, List.filter_cons, hr, List.any_cons,
        Bool.false_or] at ih ⊢
      exact ih

lemma one_le_countId_of_hasIdP (p : List PersistedRow) (i : Option AttrVal)
    (h : hasIdP p i = true) : 1 ≤ countId p i := by
  rcases Nat.eq_zero_or_pos (countId p i) with h0 | h1
  · rw [← hasIdP_false_iff] at h0
    rw [h] at h0
    cases h0
  · exact h1

lemma hasIdP_append (p q : List PersistedRow) (i : Option AttrVal) :
    hasIdP (p ++ q) i = (hasIdP p i || hasIdP q i) := by
  simp [hasIdP, List.any_append]

lemma hasIdP_mergeInto_mono (staged : List NormalizedRow) :
    ∀ (perm : List PersistedRow) (c : Nat) (i : Option AttrVal),
      hasIdP perm i = true →
      hasIdP (staged.foldl mergeStep (perm, c)).1 i = true := by
  induction staged with
  | nil => intro perm c i h; simpa using h
  | cons r t ih =>
    intro perm c i h
    rw [List.foldl_cons]
    cases hh : hasIdP perm r.id_lectura with
    | true =>
      have hstep : mergeStep (perm, c) r = (perm, c) := by simp [mergeStep, hh]
      rw [hstep]
      exact ih perm c i h
    | false =>
      have hstep : mergeStep (perm, c) r = (perm ++ [toPersisted r], c + 1) := by
        simp [mergeStep, hh]
      rw [hstep]
      exact ih _ _ i (by simp [hasIdP_append, h])

lemma hasIdP_mergeInto_of_mem (staged : List NormalizedRow) :
    ∀ (perm : List PersistedRow) (c : Nat) (s : NormalizedRow), s ∈ staged →
      hasIdP (staged.foldl mergeStep (perm, c)).1 s.id_lectura = true := by
  induction staged with
  | nil => intro _ _ _ h; cases h
  | cons r t ih =>
    intro perm c s hs
    rw [List.foldl_cons]
    rcases List.mem_cons.mp hs with rfl | hs2
    · cases hh : hasIdP perm s.id_lectura with
      | true =>
        have hstep : mergeStep (perm, c) s = (perm, c) := by simp [mergeStep, hh]
        rw [hstep]
        exact hasIdP_mergeInto_mono t perm c _ hh
      | false =>
        have hstep : mergeStep (perm, c) s = (perm ++ [toPersisted s], c + 1) := by
          simp [mergeStep, hh]
        rw [hstep]
        refine hasIdP_mergeInto_mono t _ _ _ ?_
        simp [hasIdP_append, hasIdP, toPersisted_id]
    · cases hh : hasIdP perm r.id_lectura with
      | true =>
        have hstep : mergeStep (perm, c) r = (perm, c) := by simp [mergeStep, hh]
        rw [hstep]
        exact ih _ _ s hs2
      | false =>
        have hstep : mergeStep (perm, c) r = (perm ++ [toPersisted r], c + 1) := by
          simp [mergeStep, hh]
        rw [hstep]
        exact ih _ _ s hs2

lemma mergeInto_skip_all (staged : List NormalizedRow) :
    ∀ (perm : List PersistedRow) (c : Nat),
      (∀ s ∈ staged, hasIdP perm s.id_lectura = true) →
      staged.foldl mergeStep (perm, c) = (perm, c) := by
  induction staged with
  | nil => intro perm c _; rfl
  | cons r t ih =>
    intro perm c h
    rw [List.foldl_cons]
    have hr := h r (List.mem_cons_self r t)
    have hstep : mergeStep (perm, c) r = (perm, c) := by simp [mergeStep, hr]
    rw [hstep]
    exact ih perm c (fun s hs => h s (List.mem_cons_of_mem r hs))

lemma mergeInto_count_le_one (staged : List NormalizedRow) :
    ∀ (perm : List PersistedRow) (c : Nat),
      (∀ i, countId perm i ≤ 1) →
      ∀ i, countId (staged.foldl mergeStep (perm, c)).1 i ≤ 1 := by
  induction staged with
  | nil => intro perm c h i; simpa using h i
  | cons r t ih =>
    intro perm c h i
    rw [List.foldl_cons]
    cases hh : hasIdP perm r.id_lectura with
    | true =>
      have hstep : mergeStep (perm, c) r = (perm, c) := by simp [mergeStep, hh]
      rw [hstep]
      exact ih perm c h i
    | false =>
      have hstep : mergeStep (perm, c) r = (perm ++ [toPersisted r], c + 1) := by
        simp [mergeStep, hh]
      rw [hstep]
      apply ih
      intro j
      rw [countId_snoc]
      cases hj : (toPersisted r).id_lectura == j with
      | false => simpa [hj] using h j
      | true =>
        have hj2 : r.id_lectura = j := by
          rw [toPersisted_id] at hj
          exact eq_of_beq hj
        have h0 : countId perm j = 0 := by
          rw [← hasIdP_false_iff, ← hj2]
          exact hh
        simp [hj, h0]

lemma hasIdN_append (p q : List NormalizedRow) (i : Option AttrVal) :
    hasIdN (p ++ q) i = (hasIdN p i || hasIdN q i) := by
  simp [hasIdN, List.any_append]

lemma countIdN_snoc (l : List NormalizedRow) (r : NormalizedRow)
    (i : Option AttrVal) :
    countIdN (l ++ [r]) i =
      countIdN l i + (if r.id_lectura == i then 1 else 0) := by
  simp only [countIdN, List.filter_append, List.length_append, List.filter_cons,
    List.filter_nil]
  split <;> simp

lemma hasIdN_false_iff (l : List NormalizedRow) (i : Option AttrVal) :
    hasIdN l i = false ↔ countIdN l i = 0 := by
  induction l with
  | nil => simp [hasIdN, countIdN]
  | cons r t ih =>
    cases hr : r.id_lectura == i with
    | true => simp [hasIdN, countIdN, List.filter_cons, hr]
    | false =>
      simp only [hasIdN, countIdN, List.filter_cons, hr, List.any_cons,
        Bool.false_or] at ih ⊢
      exact ih

lemma stageInsert_mono (acc : List NormalizedRow) (r : NormalizedRow)
    (i : Option AttrVal) (h : hasIdN acc i = true) :
    hasIdN (stageInsert acc r) i = true := by
  unfold stageInsert
  cases hh : hasIdN acc r.id_lectura <;> simp [hh, hasIdN_append, h]

lemma foldl_stageInsert_mono (rows : List NormalizedRow) :
    ∀ (acc : List NormalizedRow) (i : Option AttrVal), hasIdN acc i = true →
      hasIdN (rows.foldl stageInsert acc) i = true := by
  induction rows with
  | nil => intro acc i h; simpa using h
  | cons r t ih =>
    intro acc i h
    rw [List.foldl_cons]
    exact ih _ i (stageInsert_mono acc r i h)

lemma stageRows_covers (rows : List NormalizedRow) :
    ∀ (acc : List NormalizedRow) (r : NormalizedRow), r ∈ rows →
      hasIdN (rows.foldl stageInsert acc) r.id_lectura = true := by
  induction rows with
  | nil => intro _ _ h; cases h
  | cons a t ih =>
    intro acc r hr
    rw [List.foldl_cons]
    rcases List.mem_cons.mp hr with rfl | hr2
    · apply foldl_stageInsert_mono
      unfold stageInsert
      cases hh : hasIdN acc r.id_lectura with
      | true => simp [hh]
      | false => simp [hh, hasIdN_append, hasIdN]
    · exact ih _ r hr2

lemma foldl_stageInsert_count (rows : List NormalizedRow) :
    ∀ (acc : List NormalizedRow), (∀ i, countIdN acc i ≤ 1) →
      ∀ i, countIdN (rows.foldl stageInsert acc) i ≤ 1 := by
  induction rows with
  | nil => intro acc h i; simpa using h i
  | cons r t ih =>
    intro acc h i
    rw [List.foldl_cons]
    apply ih
    intro j
    unfold stageInsert
    cases hh : hasIdN acc r.id_lectura with
    | true => simpa [hh] using h j
    | false =>
      simp only [hh, Bool.false_eq_true, if_false]
      rw [countIdN_snoc]
      cases hj : r.id_lectura == j with
      | false => simpa [hj] using h j
      | true =>
        have h0 : countIdN acc j = 0 := by
          rw [← hasIdN_false_iff, ← eq_of_beq hj]
          exact hh
        simp [hj, h0]

lemma hasIdN_exists (l : List NormalizedRow) (i : Option AttrVal)
    (h : hasIdN l i = true) : ∃ s, s ∈ l ∧ s.id_lectura = i := by
  induction l with
  | nil => simp [hasIdN] at h
  | cons a t ih =>
    cases ha : a.id_lectura == i with
    | true => exact ⟨a, List.mem_cons_self a t, eq_of_beq ha⟩
    | false =>
      have h2 : hasIdN t i = true := by simpa [hasIdN, ha] using h
      rcases ih h2 with ⟨s, hs, he⟩
      exact ⟨s, List.mem_cons_of_mem a hs, he⟩

/-- C2: on a permanent store with unique reading ids, merging a row sequence
and then merging the identical sequence again changes nothing the second
time and reports a new-record count of 0; after the first merge every
distinct reading id of the input has exactly one persisted row, ids stay
unique (repeated source items never duplicate rows), and the staging dedup
leaves at most one staged row per id, so the final insert never collides
with the uniqueness constraint. -/
theorem merge_idempotent (rows : List NormalizedRow) (perm : List PersistedRow)
    (hperm : ∀ i, countId perm i ≤ 1) :
    merge rows (merge rows perm).1 = ((merge rows perm).1, 0) ∧
    (∀ i, countId (merge rows perm).1 i ≤ 1) ∧
    (∀ r, r ∈ rows → countId (merge rows perm).1 r.id_lectura = 1) ∧
    (∀ i, countIdN (stageRows rows) i ≤ 1) := by
  have hcover : ∀ s ∈ stageRows rows,
      hasIdP (merge rows perm).1 s.id_lectura = true := by
    intro s hs
    exact hasIdP_mergeInto_of_mem (stageRows rows) perm 0 s hs
  refine ⟨?_, ?_, ?_, ?_⟩
  · show mergeInto (merge rows perm).1 (stageRows rows) = ((merge rows perm).1, 0)
    exact mergeInto_skip_all (stageRows rows) (merge rows perm).1 0 hcover
  · intro i
    exact mergeInto_count_le_one (stageRows rows) perm 0 hperm i
  · intro r hr
    have h1 : hasIdN (stageRows rows) r.id_lectura = true :=
      stageRows_covers rows [] r hr
    rcases hasIdN_exists _ _ h1 with ⟨s, hs, hseq⟩
    have h2 : hasIdP (merge rows perm).1 r.id_lectura = true := by
      rw [← hseq]
      exact hcover s hs
    have h3 := one_le_countId_of_hasIdP _ _ h2
    have h4 := mergeInto_count_le_one (stageRows rows) perm 0 hperm r.id_lectura
    have h5 : (merge rows perm).1 =
        ((stageRows rows).foldl mergeStep (perm, 0)).1 := rfl
    rw [h5] at h3
    rw [h5]
    omega
  · intro i
    exact foldl_stageInsert_count rows [] (by intro j; simp [countIdN]) i

/-- A normalized row as produced from a fully populated item. -/
def normA1 : NormalizedRow :=
  ⟨some (AttrVal.strV "a1"), some (AttrVal.strV "d1"), 22, 55, 10, 80,
   some (AttrVal.strV "on"), 1700000000⟩

/-- A normalized row whose optional numerics were defaulted. -/
def normA2 : NormalizedRow :=
  ⟨some (AttrVal.strV "a2"), some (AttrVal.strV "d1"), 0, 0, 0, 0, none,
   1700000060⟩

theorem merge_idempotent_witness :
    (∀ i, countId [rawPersisted0] i ≤ 1) ∧
    (merge [normA1, normA2, normA1] [rawPersisted0]).2 = 2 ∧
    (merge [normA1, normA2, normA1]
        (merge [normA1, normA2, normA1] [rawPersisted0]).1 =
      ((merge [normA1, normA2, normA1] [rawPersisted0]).1, 0) ∧
     (∀ i, countId (merge [normA1, normA2, normA1] [rawPersisted0]).1 i ≤ 1) ∧
     (∀ r, r ∈ [normA1, normA2, normA1] →
        countId (merge [normA1, normA2, normA1] [rawPersisted0]).1
          r.id_lectura = 1) ∧
     (∀ i, countIdN (stageRows [normA1, normA2, normA1]) i ≤ 1)) := by
  have hp : ∀ i, countId [rawPersisted0] i ≤ 1 := by
    intro i
    have hlen := List.length_filter_le
      (fun r : PersistedRow => r.id_lectura == i) [rawPersisted0]
    simpa [countId] using hlen
  exact ⟨hp, by decide, merge_idempotent [normA1, normA2, normA1] [rawPersisted0] hp⟩

/-- C3: whenever the run reaches the merge phase and any of its steps fails
(staging insert, move to the permanent table, or commit), the transaction is
rolled back and the error is surfaced as status `error_postgres` (the spec's
`error_store`): the permanent store holds exactly the rows it held before
the run, so a batch lands either whole (success branch) or not at all. -/
theorem merge_failure_rollback (items : List RawItem) (store : StoreEnv)
    (db : List PersistedRow) (hne : items ≠ [])
    (hprep : prepareAll items ≠ none) (hfail : mergeStepFails store) :
    (∃ msg, (run_dynamo_sync (Except.ok items) store db).result =
        Except.ok ⟨"error_postgres", none, some msg⟩) ∧
    (run_dynamo_sync (Except.ok items) store db).db = db := by
  cases items with
  | nil => exact absurd rfl hne
  | cons a rest =>
    cases hp : prepareAll (a :: rest) with
    | none => exact absurd hp hprep
    | some rows =>
      unfold run_dynamo_sync
      simp only [List.isEmpty_cons, Bool.false_eq_true, if_false, hp]
      cases hc : store.connectFail with
      | some e => exact ⟨⟨e, rfl⟩, rfl⟩
      | none =>
        cases hs : store.stagingFail with
        | some e => exact ⟨⟨e, rfl⟩, rfl⟩
        | none =>
          cases hm : store.moveFail with
          | some e => exact ⟨⟨e, rfl⟩, rfl⟩
          | none =>
            cases hcm : store.commitFail with
            | some e => exact ⟨⟨e, rfl⟩, rfl⟩
            | none =>
              exfalso
              rcases hfail with h | h | h
              · exact h hs
              · exact h hm
              · exact h hcm

theorem merge_failure_rollback_witness :
    ([rawGood] ≠ ([] : List RawItem)) ∧
    prepareAll [rawGood] ≠ none ∧
    mergeStepFails ⟨none, none, none, some "commit failed"⟩ ∧
    ((∃ msg, (run_dynamo_sync (Except.ok [rawGood])
          ⟨none, none, none, some "commit failed"⟩ [rawPersisted0]).result =
        Except.ok ⟨"error_postgres", none, some msg⟩) ∧
     (run_dynamo_sync (Except.ok [rawGood])
        ⟨none, none, none, some "commit failed"⟩ [rawPersisted0]).db =
       [rawPersisted0]) := by
  have h1 : [rawGood] ≠ ([] : List RawItem) := by simp
  have h2 : prepareAll [rawGood] ≠ none := by decide
  have h3 : mergeStepFails ⟨none, none, none, some "commit failed"⟩ :=
    Or.inr (Or.inr (Option.some_ne_none _))
  exact ⟨h1, h2, h3,
    merge_failure_rollback [rawGood] ⟨none, none, none, some "commit failed"⟩
      [rawPersisted0] h1 h2 h3⟩

/-- C5 (counterexample): an invocation of `GET /sync-dynamo` whose scan
yields an item without a timestamp makes `run_dynamo_sync` raise, and
`manual_sync` (which wraps the call in no `try`) propagates the exception:
no 200 JSON envelope is produced (Flask answers 500), refuting "the HTTP
response status is 200 for every invocation". -/
theorem manual_sync_counterexample :
    manual_sync (Except.ok [rawNoTs]) okStore [] =
      Except.error PyError.typeError := rfl

/-- C5 (amended): whenever `run_dynamo_sync` returns a structured result —
including every error status — `manual_sync` answers HTTP 200 with the
fixed message and that result embedded under the `result` key; when
`run_dynamo_sync` raises instead, the exception propagates and no 200
envelope is produced. -/
theorem manual_sync_embeds_result (scanResult : Except String (List RawItem))
    (store : StoreEnv) (db : List PersistedRow) (r : SyncResult)
    (h : (run_dynamo_sync scanResult store db).result = Except.ok r) :
    manual_sync scanResult store db =
      Except.ok ⟨200, "Sincronización manual completada.", r⟩ := by
  unfold manual_sync
  rw [h]

theorem manual_sync_embeds_result_witness :
    (run_dynamo_sync (Except.error "boom") okStore []).result =
      Except.ok ⟨"error_dynamo", none, some "boom"⟩ ∧
    manual_sync (Except.error "boom") okStore [] =
      Except.ok ⟨200, "Sincronización manual completada.",
        ⟨"error_dynamo", none, some "boom"⟩⟩ :=
  ⟨rfl, manual_sync_embeds_result (Except.error "boom") okStore []
    ⟨"error_dynamo", none, some "boom"⟩ rfl⟩

/-- The optional decimal field is absent or holds a number (the shape §3 of
the spec gives to temperature/humidity/distance). -/
def okNum : Option AttrVal → Bool
  | none => true
  | some (AttrVal.numV _) => true
  | some (AttrVal.strV _) => false

/-- The optional integer field is absent or holds an integral number (the
shape §3 gives to the light percentage). -/
def okInt : Option AttrVal → Bool
  | none => true
  | some (AttrVal.numV q) => q.den == 1
  | some (AttrVal.strV _) => false

/-- Value of an optional decimal field after normalization: the default 0.0
when absent, the carried number otherwise. -/
def valNum : Option AttrVal → Rat
  | none => 0
  | some (AttrVal.numV q) => q
  | some (AttrVal.strV _) => 0

/-- Value of an optional integer field after normalization: the default 0
when absent, the carried integer otherwise. -/
def valInt : Option AttrVal → Int
  | none => 0
  | some (AttrVal.numV q) => q.num
  | some (AttrVal.strV _) => 0

lemma pyFloatD_okNum (v : Option AttrVal) (h : okNum v = true) :
    pyFloatD v 0 = some (valNum v) := by
  match v with
  | none => rfl
  | some (AttrVal.numV q) => rfl
  | some (AttrVal.strV s) => simp [okNum] at h

lemma pyIntD_okInt (v : Option AttrVal) (h : okInt v = true) :
    pyIntD v 0 = some (valInt v) := by
  match v with
  | none => rfl
  | some (AttrVal.numV q) =>
    have hd : q.den = 1 := by simpa [okInt] using h
    simp [pyIntD, pyInt, valInt, hd]
  | some (AttrVal.strV s) => simp [okInt] at h

/-- C8: for every raw item with a valid timestamp (and the optional numeric
fields shaped as §3 declares), normalization succeeds and substitutes
defaults exactly for the missing optional fields — temperature, humidity and
distance default to 0.0 and light percentage to 0 — while every present
field (device id and light state included) passes through unchanged. -/
theorem prepare_defaults (it : RawItem) (ts : Int)
    (hts : pyIntReq it.timestamp = some ts)
    (h1 : okNum it.temperatura = true) (h2 : okNum it.humedad = true)
    (h3 : okNum it.distancia_cm = true) (h4 : okInt it.luz_porcentaje = true) :
    prepareItem it = some ⟨it.id_lectura, it.device_id, valNum it.temperatura,
      valNum it.humedad, valNum it.distancia_cm, valInt it.luz_porcentaje,
      it.estado_luz, ts⟩ ∧
    valNum none = 0 ∧ valInt none = 0 ∧
    (∀ q : Rat, valNum (some (AttrVal.numV q)) = q) ∧
    (∀ m : Int, valInt (some (AttrVal.numV (m : Rat))) = m) := by
  refine ⟨?_, rfl, rfl, fun q => rfl, fun m => ?_⟩
  · unfold prepareItem
    rw [pyFloatD_okNum _ h1, pyFloatD_okNum _ h2, pyFloatD_okNum _ h3,
        pyIntD_okInt _ h4, hts]
  · simp [valInt]

/-- The spec §8 exemplar "a2": valid timestamp, missing humidity and light
percentage. -/
def rawA2 : RawItem :=
  ⟨some (AttrVal.strV "a2"), some (AttrVal.strV "d1"), some (AttrVal.numV 22),
   none, some (AttrVal.numV 10), none, some (AttrVal.strV "on"),
   some (AttrVal.numV 1700000060)⟩

theorem prepare_defaults_witness :
    pyIntReq rawA2.timestamp = some 1700000060 ∧
    okNum rawA2.temperatura = true ∧ okNum rawA2.humedad = true ∧
    okNum rawA2.distancia_cm = true ∧ okInt rawA2.luz_porcentaje = true ∧
    (prepareItem rawA2 = some ⟨rawA2.id_lectura, rawA2.device_id,
        valNum rawA2.temperatura, valNum rawA2.humedad,
        valNum rawA2.distancia_cm, valInt rawA2.luz_porcentaje,
        rawA2.estado_luz, 1700000060⟩ ∧
      valNum none = 0 ∧ valInt none = 0 ∧
      (∀ q : Rat, valNum (some (AttrVal.numV q)) = q) ∧
      (∀ m : Int, valInt (some (AttrVal.numV (m : Rat))) = m)) := by
  refine ⟨by decide, by decide, by decide, by decide, by decide,
    prepare_defaults rawA2 1700000060 (by decide) (by decide) (by decide)
      (by decide) (by decide)⟩
